import Mathlib

/-!
Shallow embedding of `src/Contin/contin.c` (a CONTIN-style regularized
inversion program) together with proofs about the embedded definitions.

Modelling conventions:
* C `double` arithmetic is modelled by the real numbers `ℝ` (exact
  arithmetic); the core evaluator definitions are stated over an arbitrary
  commutative ring so that they stay executable.
* `gsl_vector` buffers are modelled as functions: `Fin n → ℝ` for fully
  initialized fixed-size buffers, `ℕ → ℝ` for buffers read or written only
  on an index prefix.  An index the source never writes is modelled as `0`
  for output buffers of the pure evaluators.
* `gsl_matrix_alloc` returns uninitialized memory; the builder
  `parameter_alloc` therefore receives the arbitrary initial contents `K0`
  of the freshly allocated kernel matrix, and an entry never written by the
  source keeps its `K0` value.
* The external `ool` optimizer is not part of the repository; `contin`
  receives it as an abstract state machine (`OolRun`) produced from the
  assembled problem data (`OolProblem`), mirroring
  `ool_conmin_minimizer_set` / `ool_conmin_minimizer_iterate` /
  `ool_conmin_is_optimal`.
-/

namespace Contin

/-- Embedding of `sqr` (contin.c line 56): `sqr(x) = x * x`. -/
def sqr {R : Type} [CommRing R] (x : R) : R := x * x

/-- Embedding of the `parameter` struct (contin.c lines 105-115): kernel
matrix `K`, observed data `y` over axis `t`, time-constant grid `tau`,
noise weights `w`, quadrature weights `c`, and regularization strength
`alpha`. -/
structure parameter (R : Type) (n m : ℕ) where
  K : Fin n → Fin m → R
  y : Fin n → R
  t : Fin n → R
  tau : Fin m → R
  w : Fin n → R
  c : Fin m → R
  alpha : R

/-- Embedding of `diff2` (contin.c lines 215-223), the discrete second
derivative with one-sided boundary stencils.  The output buffer has length
`m`; the interior loop writes indices `1..m-2`, then index `0` and index
`m-1` are written (in that order, so for `m = 1` the last write wins, as in
the C source).  Indices `≥ m` are never written and are modelled as `0`. -/
def diff2 {R : Type} [CommRing R] (m : ℕ) (x : ℕ → R) : ℕ → R := fun i =>
  if i = m - 1 then x (m - 2) - 2 * x (m - 1)
  else if i = 0 then -2 * x 0 + x 1
  else if i < m then x (i - 1) - 2 * x i + x (i + 1)
  else 0

/-- The predicted signal `z i = b + Σ_j c_j K[i][j] x_j` with `b = x m`,
computed identically by the loops in `fun` (lines 256-261), `fun_df`
(lines 303-309) and `fun_fdf` (lines 363-369) of contin.c. -/
def zsig {R : Type} [CommRing R] {n m : ℕ} (p : parameter R n m)
    (x : ℕ → R) : Fin n → R :=
  fun i => x m + ∑ j : Fin m, p.c j * p.K i j * x j.val

/-- The weighted residual accumulator `var` of `fun` (contin.c line 261). -/
def funVar {R : Type} [CommRing R] {n m : ℕ} (p : parameter R n m)
    (x : ℕ → R) : R :=
  ∑ i : Fin n, p.w i * sqr (p.y i - zsig p x i)

/-- The regularizer accumulator `reg` of `fun` (contin.c line 266). -/
def funReg {R : Type} [CommRing R] (m : ℕ) (x : ℕ → R) : R :=
  ∑ i : Fin m, sqr (diff2 m x i.val)

/-- Embedding of `fun` (contin.c lines 233-274): the objective
`var + alpha*alpha*reg`.  (`fun` is a Lean keyword, hence the prime.) -/
def fun' {R : Type} [CommRing R] {n m : ℕ} (p : parameter R n m)
    (x : ℕ → R) : R :=
  funVar p x + p.alpha * p.alpha * funReg m x

/-- Embedding of `fun_df` (contin.c lines 285-329): the gradient buffer of
length `m+1`; component `i < m` is the data-term sum plus
`2*alpha*alpha*d4g_i` (line 318), component `m` is the offset sum
(lines 321-324). -/
def fun_df {R : Type} [CommRing R] {n m : ℕ} (p : parameter R n m)
    (x : ℕ → R) : ℕ → R := fun idx =>
  if h : idx < m then
    (∑ j : Fin n,
      2 * p.w j * (zsig p x j - p.y j) * p.c ⟨idx, h⟩ * p.K j ⟨idx, h⟩)
      + 2 * p.alpha * p.alpha * diff2 m (diff2 m x) idx
  else if idx = m then
    ∑ j : Fin n, 2 * p.w j * (zsig p x j - p.y j)
  else 0

/-- Embedding of `fun_fdf` (contin.c lines 339-406): value and gradient in
one call, duplicating the arithmetic of `fun` and `fun_df` verbatim (as the
C source does). -/
def fun_fdf {R : Type} [CommRing R] {n m : ℕ} (p : parameter R n m)
    (x : ℕ → R) : R × (ℕ → R) :=
  ((∑ i : Fin n, p.w i * sqr (p.y i - zsig p x i))
      + p.alpha * p.alpha * (∑ i : Fin m, sqr (diff2 m x i.val)),
   fun idx =>
     if h : idx < m then
       (∑ j : Fin n,
         2 * p.w j * (zsig p x j - p.y j) * p.c ⟨idx, h⟩ * p.K j ⟨idx, h⟩)
         + 2 * p.alpha * p.alpha * diff2 m (diff2 m x) idx
     else if idx = m then
       ∑ j : Fin n, 2 * p.w j * (zsig p x j - p.y j)
     else 0)

/-- Embedding of `fun_Hv` (contin.c lines 416-462): component `i < m` is
`H2_i*v_m + Σ_j H1_ij*v_j + d4v_i` (note: the fourth-difference term is
added with scalar factor `1`, line 456), component `m` is
`H3*v_m + Σ_i H2_i*v_i`.  The point `x` is received but never read (the C
source only uses `x->size`). -/
def fun_Hv {R : Type} [CommRing R] {n m : ℕ} (p : parameter R n m)
    (_x v : ℕ → R) : ℕ → R := fun idx =>
  if h : idx < m then
    (∑ k : Fin n, 2 * p.w k * p.c ⟨idx, h⟩ * p.K k ⟨idx, h⟩) * v m
      + (∑ j : Fin m,
          (∑ k : Fin n,
            2 * p.w k * p.c ⟨idx, h⟩ * p.K k ⟨idx, h⟩ * p.c j * p.K k j)
            * v j.val)
      + diff2 m (diff2 m v) idx
  else if idx = m then
    (∑ k : Fin n, 2 * p.w k) * v m
      + ∑ i : Fin m, (∑ k : Fin n, 2 * p.w k * p.c i * p.K k i) * v i.val
  else 0

/-- Embedding of `parameter_alloc` (contin.c lines 126-186).  The C code
performs no validation whatsoever: every field is populated
unconditionally.  `K0` models the uninitialized contents of the freshly
allocated kernel matrix; an entry is overwritten only when `kernelType` is
`0` (multi-exponential) or `1` (multi-lorentzian). -/
noncomputable def parameter_alloc {nn : ℕ} (t y var : Fin nn → ℝ)
    (alpha tau0 tau1 : ℝ) (m : ℕ) (kernelType : ℤ)
    (K0 : Fin nn → Fin m → ℝ) : parameter ℝ nn m :=
  { K := fun i j =>
      if kernelType = 0 then
        Real.exp (-(t i) / (tau0 + (j.val : ℝ) * ((tau1 - tau0) / ((m : ℝ) - 1))))
      else if kernelType = 1 then
        (1 / Real.pi) * (tau0 + (j.val : ℝ) * ((tau1 - tau0) / ((m : ℝ) - 1)))
          / (sqr (t i) + sqr (tau0 + (j.val : ℝ) * ((tau1 - tau0) / ((m : ℝ) - 1))))
      else K0 i j,
    y := y,
    t := t,
    tau := fun j => tau0 + (j.val : ℝ) * ((tau1 - tau0) / ((m : ℝ) - 1)),
    w := fun i => 1 / var i,
    c := fun j =>
      if j.val = 0 ∨ j.val = m - 1 then
        0.5 * ((tau1 - tau0) / ((m : ℝ) - 1))
      else (tau1 - tau0) / ((m : ℝ) - 1),
    alpha := alpha }

/-- Return code `OOL_SUCCESS` of the external ool library (value from the
library's headers; only its distinctness from `OOL_CONTINUE` matters). -/
def OOL_SUCCESS : Int := 0

/-- Status code `OOL_CONTINUE` of the external ool library. -/
def OOL_CONTINUE : Int := -2

/-- The problem data `contin` assembles and hands to the external
optimizer (contin.c lines 554-600): the callback structure `F`, the
constraint vectors `C.L`, `C.U`, and the initial iterate `X`. -/
structure OolProblem (n m : ℕ) where
  F_f : (ℕ → ℝ) → ℝ
  F_df : (ℕ → ℝ) → (ℕ → ℝ)
  F_fdf : (ℕ → ℝ) → ℝ × (ℕ → ℝ)
  F_Hv : (ℕ → ℝ) → (ℕ → ℝ) → (ℕ → ℝ)
  L : ℕ → ℝ
  U : ℕ → ℝ
  X0 : ℕ → ℝ
  nn : ℕ

/-- An instantiated run of the external optimizer: its internal state type,
the iteration step (`ool_conmin_minimizer_iterate`), the optimality test
(`ool_conmin_is_optimal`), the current iterate (`M->x`), and the state
after `ool_conmin_minimizer_set`. -/
structure OolRun (σ : Type) where
  iterate : σ → σ
  isOptimal : σ → Int
  xOf : σ → ℕ → ℝ
  init : σ

/-- The iteration loop of `contin` (contin.c lines 613-631):
`while (ii < nmax && status == OOL_CONTINUE) { ii++; iterate; status = is_optimal; }`
modelled with the remaining iteration budget as fuel. -/
def continWhile {σ : Type} (it : σ → σ) (chk : σ → Int) :
    ℕ → Int × σ → Int × σ
  | 0, st => st
  | k + 1, st =>
    if st.1 = OOL_CONTINUE then continWhile it chk k (chk (it st.2), it st.2)
    else st

/-- The result extracted by `contin` (contin.c lines 649-661): the τ-grid
copy, the amplitudes, the offset, the returned status code, and whether the
convergence message (rather than the stopped message) was printed
(lines 633-636). -/
structure ContinResult (m : ℕ) where
  s : Fin m → ℝ
  g : Fin m → ℝ
  b : ℝ
  ret : Int
  printedConvergence : Bool

/-- The problem data assembled by `contin` (contin.c lines 554-580): the
callbacks bound to `p`, lower bounds all `0.0`, upper bounds all `100.0`,
and the initial iterate all `1.0` except the last entry, set to `0`. -/
noncomputable def continProblem {n m : ℕ} (p : parameter ℝ n m) :
    OolProblem n m :=
  { F_f := fun' p,
    F_df := fun_df p,
    F_fdf := fun_fdf p,
    F_Hv := fun_Hv p,
    L := fun _ => 0,
    U := fun _ => 100,
    X0 := fun i => if i = m then 0 else 1,
    nn := m + 1 }

/-- The status/state pair after the iteration loop of `contin`, with the
source's iteration budget `nmax = 100000` (contin.c line 527). -/
noncomputable def continLoop {n m : ℕ} {σ : Type} (p : parameter ℝ n m)
    (opt : OolProblem n m → OolRun σ) : Int × σ :=
  let M := opt (continProblem p)
  continWhile M.iterate M.isOptimal 100000 (OOL_CONTINUE, M.init)

/-- Embedding of `contin` (contin.c lines 516-663): assemble the problem,
run the optimizer loop, copy `p->tau` into `s`, the first `m` entries of
the final iterate into `g` and the last into `b` — and return `OOL_SUCCESS`
unconditionally (line 661; the loop status only selects the printed
message, lines 633-636). -/
noncomputable def contin {n m : ℕ} {σ : Type} (p : parameter ℝ n m)
    (opt : OolProblem n m → OolRun σ) : ContinResult m :=
  let M := opt (continProblem p)
  let r := continLoop p opt
  { s := p.tau,
    g := fun i => M.xOf r.2 i.val,
    b := M.xOf r.2 m,
    ret := OOL_SUCCESS,
    printedConvergence := if r.1 = OOL_SUCCESS then true else false }

/-!  Helper lemmas shared by several developments below.  -/

/-- Trapezoidal weights of length `m ≥ 2` sum to `(m - 1) * d`. -/
lemma sum_trapezoid (m : ℕ) (hm : 2 ≤ m) (d : ℝ) :
    (∑ j : Fin m, if j.val = 0 ∨ j.val = m - 1 then 0.5 * d else d)
      = ((m : ℝ) - 1) * d := by
  have key : ∀ j : Fin m,
      (if j.val = 0 ∨ j.val = m - 1 then 0.5 * d else d)
        = d - (if j = (⟨0, by omega⟩ : Fin m) then 0.5 * d else 0)
            - (if j = (⟨m - 1, by omega⟩ : Fin m) then 0.5 * d else 0) := by
    intro j
    simp only [Fin.ext_iff]
    split_ifs with hA hB hC hB' hC' <;>
      first
        | (exfalso; omega)
        | ring
  rw [Finset.sum_congr rfl (fun j _ => key j)]
  rw [Finset.sum_sub_distrib, Finset.sum_sub_distrib, Finset.sum_const,
    Finset.sum_ite_eq' Finset.univ, Finset.sum_ite_eq' Finset.univ]
  simp only [Finset.mem_univ, if_true, Finset.card_univ, Fintype.card_fin,
    nsmul_eq_mul]
  ring

/-!  C5: the combined evaluator agrees with the standalone ones.  -/

/-- Claim C5: for every coefficient vector `x` and every parameter bundle,
`fun_fdf` returns the objective value of `fun` and the gradient of
`fun_df`, both computed from the same predicted signal `z` (the three C
routines contain the same `z` loop verbatim, so the equality is
definitional in the embedding). -/
theorem c5_fun_fdf_consistent {n m : ℕ} (p : parameter ℝ n m) (x : ℕ → ℝ) :
    fun_fdf p x = (fun' p x, fun_df p x) := rfl

/-!  C8: the regularization operator on a linear sequence.  -/

/-- Claim C8: for `m ≥ 2` and a linear input `x_i = a + b*i`, `diff2`
vanishes at every interior index `1 ≤ i ≤ m-2`, and its boundary entries
are exactly the one-sided stencils `-2*x_0 + x_1` and
`x_{m-2} - 2*x_{m-1}`. -/
theorem c8_diff2_linear (m : ℕ) (hm : 2 ≤ m) (a b : ℝ) :
    (∀ i : ℕ, 1 ≤ i → i ≤ m - 2 →
      diff2 m (fun k => a + b * (k : ℝ)) i = 0) ∧
    diff2 m (fun k => a + b * (k : ℝ)) 0
      = -2 * (a + b * ((0 : ℕ) : ℝ)) + (a + b * ((1 : ℕ) : ℝ)) ∧
    diff2 m (fun k => a + b * (k : ℝ)) (m - 1)
      = (a + b * ((m - 2 : ℕ) : ℝ)) - 2 * (a + b * ((m - 1 : ℕ) : ℝ)) := by
  refine ⟨?_, ?_, ?_⟩
  · intro i h1 h2
    unfold diff2
    rw [if_neg (by omega : ¬ i = m - 1), if_neg (by omega : ¬ i = 0),
      if_pos (by omega : i < m)]
    change (a + b * ((i - 1 : ℕ) : ℝ)) - 2 * (a + b * (i : ℝ))
      + (a + b * ((i + 1 : ℕ) : ℝ)) = 0
    rw [Nat.cast_sub h1]
    push_cast
    ring
  · unfold diff2
    rw [if_neg (by omega : ¬ (0 : ℕ) = m - 1), if_pos rfl]
  · unfold diff2
    rw [if_pos rfl]

/-- Witness for C8 at `m = 4`, `a = 5`, `b = 2`. -/
theorem c8_diff2_linear_witness :
    (∀ i : ℕ, 1 ≤ i → i ≤ 4 - 2 →
      diff2 4 (fun k => 5 + 2 * (k : ℝ)) i = 0) ∧
    diff2 4 (fun k => 5 + 2 * (k : ℝ)) 0
      = -2 * (5 + 2 * ((0 : ℕ) : ℝ)) + (5 + 2 * ((1 : ℕ) : ℝ)) ∧
    diff2 4 (fun k => 5 + 2 * (k : ℝ)) (4 - 1)
      = (5 + 2 * ((4 - 2 : ℕ) : ℝ)) - 2 * (5 + 2 * ((4 - 1 : ℕ) : ℝ)) :=
  c8_diff2_linear 4 (by norm_num) 5 2

/-!  C10: `diff2` only reads its input's first `m` entries.  -/

/-- Claim C10: for `m ≥ 2`, two inputs agreeing on indices `0..m-1`
produce identical `diff2` outputs; consequently the regularization term of
the objective (`funReg`, and hence `fun' - funVar`) and the
fourth-difference term used by `fun_df` and `fun_Hv` are independent of
the offset entry `x m` of the `(m+1)`-length coefficient or direction
vector. -/
theorem c10_diff2_prefix (m : ℕ) (hm : 2 ≤ m) (x x' : ℕ → ℝ)
    (hag : ∀ k, k < m → x k = x' k) :
    (∀ i : ℕ, diff2 m x i = diff2 m x' i) ∧
    funReg m x = funReg m x' ∧
    (∀ i : ℕ, diff2 m (diff2 m x) i = diff2 m (diff2 m x') i) ∧
    (∀ (nn : ℕ) (p : parameter ℝ nn m),
      fun' p x - funVar p x = fun' p x' - funVar p x') := by
  have h1 : ∀ i : ℕ, diff2 m x i = diff2 m x' i := by
    intro i
    unfold diff2
    split_ifs with hA hB hC
    · rw [hag _ (by omega), hag _ (by omega)]
    · rw [hag _ (by omega), hag _ (by omega)]
    · rw [hag _ (by omega), hag _ (by omega), hag _ (by omega)]
    · rfl
  have hfx : diff2 m x = diff2 m x' := funext h1
  have hr : funReg m x = funReg m x' := by
    unfold funReg
    exact Finset.sum_congr rfl (fun i _ => by rw [h1])
  refine ⟨h1, hr, fun i => by rw [hfx], fun nn p => ?_⟩
  unfold fun'
  rw [hr]
  ring

/-- Witness for C10 at `m = 2` with inputs agreeing below index 2 and
differing at index 2. -/
theorem c10_diff2_prefix_witness :
    (∀ i : ℕ, diff2 2 (fun k => (k : ℝ)) i
        = diff2 2 (fun k => if k < 2 then (k : ℝ) else 99) i) ∧
    funReg 2 (fun k => (k : ℝ))
      = funReg 2 (fun k => if k < 2 then (k : ℝ) else 99) ∧
    (∀ i : ℕ, diff2 2 (diff2 2 (fun k => (k : ℝ))) i
        = diff2 2 (diff2 2 (fun k => if k < 2 then (k : ℝ) else 99)) i) ∧
    (∀ (nn : ℕ) (p : parameter ℝ nn 2),
      fun' p (fun k => (k : ℝ)) - funVar p (fun k => (k : ℝ))
        = fun' p (fun k => if k < 2 then (k : ℝ) else 99)
            - funVar p (fun k => if k < 2 then (k : ℝ) else 99)) :=
  c10_diff2_prefix 2 (by norm_num) _ _ (fun k hk => by simp [hk])

/-!  C9: unknown kernel selectors are not rejected.  -/

/-- Claim C9: for every kernel selector other than `0` or `1` the builder
does not fail: it returns a bundle whose kernel matrix still holds the
uninitialized contents `K0` (no entry is written), while the other fields
are built as usual. -/
theorem c9_unknown_kernel {nn : ℕ} (t y var : Fin nn → ℝ)
    (alpha tau0 tau1 : ℝ) (m : ℕ) (kt : ℤ) (h0 : kt ≠ 0) (h1 : kt ≠ 1)
    (K0 : Fin nn → Fin m → ℝ) :
    (parameter_alloc t y var alpha tau0 tau1 m kt K0).K = K0 ∧
    (∀ i, (parameter_alloc t y var alpha tau0 tau1 m kt K0).w i
        = 1 / var i) ∧
    (∀ j, (parameter_alloc t y var alpha tau0 tau1 m kt K0).tau j
        = tau0 + (j.val : ℝ) * ((tau1 - tau0) / ((m : ℝ) - 1))) := by
  refine ⟨?_, fun i => rfl, fun j => rfl⟩
  funext i j
  simp [parameter_alloc, h0, h1]

/-- Witness for C9 with kernel selector `2`. -/
theorem c9_unknown_kernel_witness :
    (parameter_alloc (fun _ : Fin 1 => (1 : ℝ)) (fun _ => 0) (fun _ => 1)
        1 0 1 3 2 (fun _ _ => 42)).K = (fun _ _ => 42) ∧
    (∀ i, (parameter_alloc (fun _ : Fin 1 => (1 : ℝ)) (fun _ => 0)
        (fun _ => 1) 1 0 1 3 2 (fun _ _ => 42)).w i
          = 1 / (fun _ : Fin 1 => (1 : ℝ)) i) ∧
    (∀ j, (parameter_alloc (fun _ : Fin 1 => (1 : ℝ)) (fun _ => 0)
        (fun _ => 1) 1 0 1 3 2 (fun _ _ => 42)).tau j
          = 0 + (j.val : ℝ) * ((1 - 0) / ((3 : ℝ) - 1))) :=
  c9_unknown_kernel _ _ _ _ _ _ _ _ (by decide) (by decide) _

/-!  C3: the builder never fails (the spec's validation is absent).  -/

/-- Claim C3 counterexample: at `m = 2` (the claim demands failure with
`InvalidDimension` before any optimizer invocation) and with sample
variance `-1 ≤ 0` (the claim demands `InvalidInput`), `parameter_alloc`
does not fail at all: it returns a complete bundle, here with the explicit
field values shown — including the nonsensical negative noise weight
`1/(-1) = -1`.  There is no error path in the source builder. -/
theorem c3_counterexample :
    (parameter_alloc (fun _ : Fin 1 => (1 : ℝ)) (fun _ => 0) (fun _ => -1)
        1 1 2 2 1 (fun _ _ => 0)).w 0 = -1 ∧
    (parameter_alloc (fun _ : Fin 1 => (1 : ℝ)) (fun _ => 0) (fun _ => -1)
        1 1 2 2 1 (fun _ _ => 0)).c 0 = 1 / 2 ∧
    (parameter_alloc (fun _ : Fin 1 => (1 : ℝ)) (fun _ => 0) (fun _ => -1)
        1 1 2 2 1 (fun _ _ => 0)).c 1 = 1 / 2 ∧
    (parameter_alloc (fun _ : Fin 1 => (1 : ℝ)) (fun _ => 0) (fun _ => -1)
        1 1 2 2 1 (fun _ _ => 0)).tau 0 = 1 ∧
    (parameter_alloc (fun _ : Fin 1 => (1 : ℝ)) (fun _ => 0) (fun _ => -1)
        1 1 2 2 1 (fun _ _ => 0)).tau 1 = 2 := by
  refine ⟨?_, ?_, ?_, ?_, ?_⟩ <;> norm_num [parameter_alloc]

/-- Claim C3 amended: the builder performs no validation and never fails;
for every input (including `m < 3`, non-positive variances, and
non-positive grid points) it returns a complete bundle whose noise weights
are `1/variance_i` pointwise (negative whenever `variance_i < 0`), whose
τ-grid follows the build formula, and whose interior quadrature weights
equal `Δτ`. -/
theorem c3_no_validation {nn : ℕ} (t y var : Fin nn → ℝ)
    (alpha tau0 tau1 : ℝ) (m : ℕ) (kt : ℤ) (K0 : Fin nn → Fin m → ℝ) :
    (∀ i, (parameter_alloc t y var alpha tau0 tau1 m kt K0).w i
        = 1 / var i) ∧
    (∀ i, var i < 0 →
      (parameter_alloc t y var alpha tau0 tau1 m kt K0).w i < 0) ∧
    (∀ j : Fin m, (parameter_alloc t y var alpha tau0 tau1 m kt K0).tau j
        = tau0 + (j.val : ℝ) * ((tau1 - tau0) / ((m : ℝ) - 1))) ∧
    (∀ j : Fin m, j.val ≠ 0 → j.val ≠ m - 1 →
      (parameter_alloc t y var alpha tau0 tau1 m kt K0).c j
        = (tau1 - tau0) / ((m : ℝ) - 1)) := by
  refine ⟨fun i => rfl, fun i hv => ?_, fun j => rfl, fun j hj0 hj1 => ?_⟩
  · exact one_div_neg.mpr hv
  · simp [parameter_alloc, hj0, hj1]

/-- Witness for C3's amended claim: the invalid variance `-1` flows
through construction and produces the negative weight `-1`. -/
theorem c3_no_validation_witness :
    (parameter_alloc (fun _ : Fin 1 => (1 : ℝ)) (fun _ => 0) (fun _ => -1)
        1 1 2 2 1 (fun _ _ => 0)).w 0 < 0 :=
  (c3_no_validation _ _ _ _ _ _ _ _ _).2.1 0 (by norm_num)

/-!  C7: the quadrature weight vector.  -/

/-- Claim C7: for grid bounds `tau0 < tau1` and `m ≥ 3`, the quadrature
weights built by `parameter_alloc` are `Δτ/2` at both ends and `Δτ` in the
interior, and they sum exactly to `tau1 - tau0`. -/
theorem c7_quadrature {nn : ℕ} (t y var : Fin nn → ℝ) (alpha : ℝ)
    (tau0 tau1 : ℝ) (m : ℕ) (kt : ℤ) (K0 : Fin nn → Fin m → ℝ)
    (_h01 : tau0 < tau1) (hm : 3 ≤ m) :
    (parameter_alloc t y var alpha tau0 tau1 m kt K0).c ⟨0, by omega⟩
        = ((tau1 - tau0) / ((m : ℝ) - 1)) / 2 ∧
    (parameter_alloc t y var alpha tau0 tau1 m kt K0).c ⟨m - 1, by omega⟩
        = ((tau1 - tau0) / ((m : ℝ) - 1)) / 2 ∧
    (∀ j : Fin m, 0 < j.val → j.val < m - 1 →
      (parameter_alloc t y var alpha tau0 tau1 m kt K0).c j
        = (tau1 - tau0) / ((m : ℝ) - 1)) ∧
    (∑ j : Fin m, (parameter_alloc t y var alpha tau0 tau1 m kt K0).c j)
      = tau1 - tau0 := by
  refine ⟨?_, ?_, fun j hj0 hj1 => ?_, ?_⟩
  · show (if (0 : ℕ) = 0 ∨ (0 : ℕ) = m - 1 then
        0.5 * ((tau1 - tau0) / ((m : ℝ) - 1))
      else (tau1 - tau0) / ((m : ℝ) - 1)) = _
    rw [if_pos (Or.inl rfl)]
    ring
  · show (if m - 1 = 0 ∨ m - 1 = m - 1 then
        0.5 * ((tau1 - tau0) / ((m : ℝ) - 1))
      else (tau1 - tau0) / ((m : ℝ) - 1)) = _
    rw [if_pos (Or.inr rfl)]
    ring
  · show (if j.val = 0 ∨ j.val = m - 1 then
        0.5 * ((tau1 - tau0) / ((m : ℝ) - 1))
      else (tau1 - tau0) / ((m : ℝ) - 1)) = _
    rw [if_neg (by omega)]
  · show (∑ j : Fin m, if j.val = 0 ∨ j.val = m - 1 then
        0.5 * ((tau1 - tau0) / ((m : ℝ) - 1))
      else (tau1 - tau0) / ((m : ℝ) - 1)) = _
    rw [sum_trapezoid m (by omega)]
    have h3 : (3 : ℝ) ≤ (m : ℝ) := by exact_mod_cast hm
    have hne : (m : ℝ) - 1 ≠ 0 := sub_ne_zero.mpr (by linarith)
    rw [mul_comm, div_mul_cancel₀ _ hne]

/-- Witness for C7 at `tau0 = 0`, `tau1 = 3`, `m = 4`. -/
theorem c7_quadrature_witness :
    (parameter_alloc (fun _ : Fin 1 => (1 : ℝ)) (fun _ => 1) (fun _ => 1)
        0 0 3 4 2 (fun _ _ => 0)).c ⟨0, by norm_num⟩
        = ((3 - 0) / ((4 : ℝ) - 1)) / 2 ∧
    (parameter_alloc (fun _ : Fin 1 => (1 : ℝ)) (fun _ => 1) (fun _ => 1)
        0 0 3 4 2 (fun _ _ => 0)).c ⟨4 - 1, by norm_num⟩
        = ((3 - 0) / ((4 : ℝ) - 1)) / 2 ∧
    (∀ j : Fin 4, 0 < j.val → j.val < 4 - 1 →
      (parameter_alloc (fun _ : Fin 1 => (1 : ℝ)) (fun _ => 1) (fun _ => 1)
        0 0 3 4 2 (fun _ _ => 0)).c j
        = (3 - 0) / ((4 : ℝ) - 1)) ∧
    (∑ j : Fin 4, (parameter_alloc (fun _ : Fin 1 => (1 : ℝ)) (fun _ => 1)
        (fun _ => 1) 0 0 3 4 2 (fun _ _ => 0)).c j)
      = 3 - 0 :=
  c7_quadrature _ _ _ _ _ _ _ _ _ (by norm_num) (by norm_num)

end Contin
